import Mathlib

/-!
Verification of `fine-tune.py` (fish-speech fine-tuning driver).

The script is declarative glue around the Hugging Face ecosystem.  We embed:

* the batch transform `dataset_transform` (tokenize, pad to longest,
  truncate at 512, mask padding labels with `-100`),
* the dataset-loading fallback (`load_from_disk` with a `train`-split
  selection, falling back to `load_dataset(..., split="train")`),
* the optional LoRA wrapping of the model's parameter set,
* the seeded `train_test_split(test_size=1000, seed=42)`.

External library calls (tokenizer padding semantics, `get_peft_model`,
the seeded shuffle inside `train_test_split`) are not part of the
repository; they are modelled from their documented behaviour as restated
by the spec, faithful to the arguments the script passes them.
-/

namespace FineTune

/-- Model of the tokenizer object: a raw encoding function from text to
token ids plus the ids and the configured `model_max_length` that
`AutoTokenizer.from_pretrained` receives.  Token ids are naturals. -/
structure Tokenizer where
  encode : String → List Nat
  padTokenId : Nat
  eosTokenId : Nat
  modelMaxLength : Nat

/-- The dict returned by `dataset_transform`. -/
structure TransformOutput where
  input_ids : List (List Nat)
  attention_mask : List (List Nat)
  labels : List (List Int)
  deriving DecidableEq, Repr

/-- Per-prompt tokenization with `truncation=True, max_length=512`:
each encoded prompt is cut to at most 512 tokens. -/
def truncOf (tk : Tokenizer) (prompts : List String) : List (List Nat) :=
  prompts.map fun p => (tk.encode p).take 512

/-- The padded length chosen by `padding="longest"`: the length of the
longest truncated sequence in the batch. -/
def paddedLen (tk : Tokenizer) (prompts : List String) : Nat :=
  ((truncOf tk prompts).map List.length).foldr max 0

/-- Right-pad one truncated sequence to length `L` with the pad token. -/
def padRow (pad L : Nat) (t : List Nat) : List Nat :=
  t ++ List.replicate (L - t.length) pad

/-- Attention mask for one row: 1 on real tokens, 0 on padding. -/
def maskRow (L : Nat) (t : List Nat) : List Nat :=
  List.replicate t.length 1 ++ List.replicate (L - t.length) 0

/-- `dataset_transform(batch, tokenizer)`: tokenizes `batch["prompt"]`
with `padding="longest", truncation=True, max_length=512`, clones the
input ids into labels, and overwrites the label at every position where
the attention mask is 0 with `-100`. -/
def dataset_transform (tk : Tokenizer) (prompts : List String) : TransformOutput :=
  let truncated := truncOf tk prompts
  let L := paddedLen tk prompts
  let input_ids := truncated.map (padRow tk.padTokenId L)
  let attention_mask := truncated.map (maskRow L)
  let labels := List.zipWith
    (fun row mrow => List.zipWith (fun (x m : Nat) => if m = 0 then (-100 : Int) else (x : Int)) row mrow)
    input_ids attention_mask
  ⟨input_ids, attention_mask, labels⟩

/-! ### List-indexing helper lemmas (`getD` based) -/

theorem getD_append_left {α} (l₁ l₂ : List α) (j : Nat) (d : α) (h : j < l₁.length) :
    (l₁ ++ l₂).getD j d = l₁.getD j d := by
  induction l₁ generalizing j with
  | nil => simp at h
  | cons x xs ih =>
    cases j with
    | zero => rfl
    | succ j => simpa using ih j (by simpa using h)

theorem getD_append_right {α} (l₁ l₂ : List α) (j : Nat) (d : α) (h : l₁.length ≤ j) :
    (l₁ ++ l₂).getD j d = l₂.getD (j - l₁.length) d := by
  induction l₁ generalizing j with
  | nil => simp
  | cons x xs ih =>
    cases j with
    | zero => simp at h
    | succ j => simpa using ih j (by simpa using h)

theorem getD_replicate {α} (n j : Nat) (a d : α) (h : j < n) :
    (List.replicate n a).getD j d = a := by
  induction n generalizing j with
  | zero => omega
  | succ n ih =>
    cases j with
    | zero => rfl
    | succ j =>
      rw [List.replicate_succ, List.getD_cons_succ]
      exact ih j (by omega)

theorem getD_map {α β} (f : α → β) (l : List α) (j : Nat) (d : β) (d₀ : α)
    (h : j < l.length) :
    (l.map f).getD j d = f (l.getD j d₀) := by
  induction l generalizing j with
  | nil => simp at h
  | cons x xs ih =>
    cases j with
    | zero => rfl
    | succ j => simpa using ih j (by simpa using h)

theorem getD_zipWith {α β γ} (f : α → β → γ) (l₁ : List α) (l₂ : List β)
    (j : Nat) (d : γ) (d₁ : α) (d₂ : β) (h₁ : j < l₁.length) (h₂ : j < l₂.length) :
    (List.zipWith f l₁ l₂).getD j d = f (l₁.getD j d₁) (l₂.getD j d₂) := by
  induction l₁ generalizing l₂ j with
  | nil => simp at h₁
  | cons x xs ih =>
    cases l₂ with
    | nil => simp at h₂
    | cons y ys =>
      cases j with
      | zero => rfl
      | succ j => simpa using ih ys j (by simpa using h₁) (by simpa using h₂)

theorem getD_mem {α} (l : List α) (j : Nat) (d : α) (h : j < l.length) :
    l.getD j d ∈ l := by
  induction l generalizing j with
  | nil => simp at h
  | cons x xs ih =>
    cases j with
    | zero => simp [List.getD]
    | succ j =>
      have := ih j (by simpa using h)
      simp only [List.getD_cons_succ]
      exact List.mem_cons_of_mem _ this

theorem le_foldr_max {x : Nat} {l : List Nat} (h : x ∈ l) :
    x ≤ l.foldr max 0 := by
  induction l with
  | nil => simp at h
  | cons y ys ih =>
    rcases List.mem_cons.mp h with h | h
    · simp [h, Nat.le_max_left]
    · exact le_trans (ih h) (by simp [Nat.le_max_right])

theorem foldr_max_le {l : List Nat} {b : Nat} (h : ∀ x ∈ l, x ≤ b) :
    l.foldr max 0 ≤ b := by
  induction l with
  | nil => exact Nat.zero_le b
  | cons y ys ih =>
    simp only [List.foldr_cons]
    exact max_le (h y (List.mem_cons_self y ys)) (ih fun x hx => h x (List.mem_cons_of_mem _ hx))

/-! ### Row-level facts about the transform -/

theorem truncOf_length (tk : Tokenizer) (prompts : List String) :
    (truncOf tk prompts).length = prompts.length := by
  simp [truncOf]

theorem trunc_mem_len_le {tk : Tokenizer} {prompts : List String} {t : List Nat}
    (ht : t ∈ truncOf tk prompts) : t.length ≤ 512 := by
  simp only [truncOf, List.mem_map] at ht
  obtain ⟨p, _, rfl⟩ := ht
  simp [List.length_take]

theorem trunc_len_le (tk : Tokenizer) (prompts : List String) (i : Nat)
    (hi : i < prompts.length) :
    ((truncOf tk prompts).getD i []).length ≤ paddedLen tk prompts := by
  have hmem : (truncOf tk prompts).getD i [] ∈ truncOf tk prompts :=
    getD_mem _ i [] (by simpa [truncOf_length] using hi)
  exact le_foldr_max (List.mem_map_of_mem _ hmem)

theorem paddedLen_le_512 (tk : Tokenizer) (prompts : List String) :
    paddedLen tk prompts ≤ 512 := by
  apply foldr_max_le
  intro x hx
  simp only [List.mem_map] at hx
  obtain ⟨t, ht, rfl⟩ := hx
  exact trunc_mem_len_le ht

theorem foldr_max_map_min (c : Nat) (l : List Nat) :
    (l.map fun x => min x c).foldr max 0 = min (l.foldr max 0) c := by
  induction l with
  | nil => simp
  | cons x xs ih =>
    simp only [List.map_cons, List.foldr_cons, ih]
    omega

theorem paddedLen_eq (tk : Tokenizer) (prompts : List String) :
    paddedLen tk prompts =
      min ((prompts.map fun p => (tk.encode p).length).foldr max 0) 512 := by
  have h1 : (truncOf tk prompts).map List.length
      = (prompts.map fun p => (tk.encode p).length).map fun x => min x 512 := by
    simp [truncOf, List.map_map, Function.comp_def, List.length_take, Nat.min_comm]
  rw [paddedLen, h1, foldr_max_map_min]

theorem padRow_length (pad L : Nat) (t : List Nat) (ht : t.length ≤ L) :
    (padRow pad L t).length = L := by
  simp [padRow]
  omega

theorem maskRow_length (L : Nat) (t : List Nat) (ht : t.length ≤ L) :
    (maskRow L t).length = L := by
  simp [maskRow]
  omega

theorem maskRow_getD (L : Nat) (t : List Nat) (j : Nat) (hj : j < L) (ht : t.length ≤ L) :
    (maskRow L t).getD j 0 = if j < t.length then 1 else 0 := by
  by_cases h : j < t.length
  · rw [if_pos h, maskRow, getD_append_left _ _ j 0 (by simpa using h)]
    exact getD_replicate _ _ _ _ h
  · rw [if_neg h, maskRow, getD_append_right _ _ j 0 (by simpa using not_lt.mp h)]
    simp only [List.length_replicate]
    exact getD_replicate _ _ _ _ (by omega)

theorem padRow_getD (pad L : Nat) (t : List Nat) (j : Nat) (hj : j < L) (ht : t.length ≤ L) :
    (padRow pad L t).getD j 0 = if j < t.length then t.getD j 0 else pad := by
  by_cases h : j < t.length
  · rw [if_pos h, padRow, getD_append_left _ _ j 0 h]
  · rw [if_neg h, padRow, getD_append_right _ _ j 0 (not_lt.mp h)]
    exact getD_replicate _ _ _ _ (by omega)

theorem ids_row_eq (tk : Tokenizer) (prompts : List String) (i : Nat)
    (hi : i < prompts.length) :
    (dataset_transform tk prompts).input_ids.getD i [] =
      padRow tk.padTokenId (paddedLen tk prompts) ((truncOf tk prompts).getD i []) := by
  show ((truncOf tk prompts).map (padRow tk.padTokenId (paddedLen tk prompts))).getD i [] = _
  exact getD_map _ _ i [] [] (by simpa [truncOf_length] using hi)

theorem mask_row_eq (tk : Tokenizer) (prompts : List String) (i : Nat)
    (hi : i < prompts.length) :
    (dataset_transform tk prompts).attention_mask.getD i [] =
      maskRow (paddedLen tk prompts) ((truncOf tk prompts).getD i []) := by
  show ((truncOf tk prompts).map (maskRow (paddedLen tk prompts))).getD i [] = _
  exact getD_map _ _ i [] [] (by simpa [truncOf_length] using hi)

theorem labels_row_eq (tk : Tokenizer) (prompts : List String) (i : Nat)
    (hi : i < prompts.length) :
    (dataset_transform tk prompts).labels.getD i [] =
      List.zipWith (fun (x m : Nat) => if m = 0 then (-100 : Int) else (x : Int))
        (padRow tk.padTokenId (paddedLen tk prompts) ((truncOf tk prompts).getD i []))
        (maskRow (paddedLen tk prompts) ((truncOf tk prompts).getD i [])) := by
  show (List.zipWith _
      ((truncOf tk prompts).map (padRow tk.padTokenId (paddedLen tk prompts)))
      ((truncOf tk prompts).map (maskRow (paddedLen tk prompts)))).getD i [] = _
  rw [getD_zipWith _ _ _ i [] [] []
      (by simpa [truncOf_length] using hi) (by simpa [truncOf_length] using hi),
    getD_map _ _ i [] [] (by simpa [truncOf_length] using hi),
    getD_map _ _ i [] [] (by simpa [truncOf_length] using hi)]

theorem labels_cell (tk : Tokenizer) (prompts : List String) (i j : Nat)
    (hi : i < prompts.length) (hj : j < paddedLen tk prompts) :
    ((dataset_transform tk prompts).labels.getD i []).getD j 0 =
      if j < ((truncOf tk prompts).getD i []).length
      then (((truncOf tk prompts).getD i []).getD j 0 : Int) else -100 := by
  have ht := trunc_len_le tk prompts i hi
  rw [labels_row_eq tk prompts i hi,
    getD_zipWith _ _ _ j 0 0 0
      (by rw [padRow_length _ _ _ ht]; exact hj)
      (by rw [maskRow_length _ _ ht]; exact hj),
    padRow_getD _ _ _ _ hj ht, maskRow_getD _ _ _ hj ht]
  by_cases h : j < ((truncOf tk prompts).getD i []).length
  · simp only [if_pos h]
    norm_num
  · simp only [if_neg h]
    norm_num

theorem transform_row_length (tk : Tokenizer) (prompts : List String) (i : Nat)
    (hi : i < prompts.length) :
    ((dataset_transform tk prompts).input_ids.getD i []).length = paddedLen tk prompts ∧
    ((dataset_transform tk prompts).attention_mask.getD i []).length = paddedLen tk prompts ∧
    ((dataset_transform tk prompts).labels.getD i []).length = paddedLen tk prompts := by
  have ht := trunc_len_le tk prompts i hi
  refine ⟨?_, ?_, ?_⟩
  · rw [ids_row_eq tk prompts i hi, padRow_length _ _ _ ht]
  · rw [mask_row_eq tk prompts i hi, maskRow_length _ _ ht]
  · rw [labels_row_eq tk prompts i hi, List.length_zipWith,
      padRow_length _ _ _ ht, maskRow_length _ _ ht, Nat.min_self]

/-! ### Claim theorems about the batch transform -/

/-- C1: in the dict returned by `dataset_transform`, a position has
attention-mask value 0 exactly when its label is the ignore sentinel
`-100`, and at every attended position the label is left untouched
(it equals the input id at that position). -/
theorem mask_zero_iff_label_ignore (tk : Tokenizer) (prompts : List String) (i j : Nat)
    (hi : i < prompts.length) (hj : j < paddedLen tk prompts) :
    ((((dataset_transform tk prompts).attention_mask.getD i []).getD j 0 = 0) ↔
      ((dataset_transform tk prompts).labels.getD i []).getD j 0 = -100) ∧
    (((dataset_transform tk prompts).attention_mask.getD i []).getD j 0 ≠ 0 →
      ((dataset_transform tk prompts).labels.getD i []).getD j 0 =
        ((((dataset_transform tk prompts).input_ids.getD i []).getD j 0 : Nat) : Int)) := by
  have ht := trunc_len_le tk prompts i hi
  rw [mask_row_eq tk prompts i hi, ids_row_eq tk prompts i hi,
    labels_cell tk prompts i j hi hj, maskRow_getD _ _ _ hj ht, padRow_getD _ _ _ _ hj ht]
  by_cases h : j < ((truncOf tk prompts).getD i []).length
  · simp only [if_pos h]
    constructor
    · constructor
      · intro h0
        omega
      · intro hlab
        omega
    · intro _
      trivial
  · simp only [if_neg h]
    norm_num

/-- C4: for a non-empty batch, every row of `input_ids`,
`attention_mask` and `labels` has the batch's padded length, which is
the length of the longest tokenized prompt capped at the truncation
bound 512. -/
theorem transform_rows_share_padded_length (tk : Tokenizer) (prompts : List String)
    (h : prompts ≠ []) :
    (∀ i < prompts.length,
      ((dataset_transform tk prompts).input_ids.getD i []).length = paddedLen tk prompts ∧
      ((dataset_transform tk prompts).attention_mask.getD i []).length = paddedLen tk prompts ∧
      ((dataset_transform tk prompts).labels.getD i []).length = paddedLen tk prompts) ∧
    paddedLen tk prompts =
      min ((prompts.map fun p => (tk.encode p).length).foldr max 0) 512 := by
  exact ⟨fun i hi => transform_row_length tk prompts i hi, paddedLen_eq tk prompts⟩

/-- C5: at every position whose attention-mask value is 1, the label
equals the input token id at that position. -/
theorem label_eq_id_at_attended (tk : Tokenizer) (prompts : List String) (i j : Nat)
    (hi : i < prompts.length) (hj : j < paddedLen tk prompts)
    (hmask : ((dataset_transform tk prompts).attention_mask.getD i []).getD j 0 = 1) :
    ((dataset_transform tk prompts).labels.getD i []).getD j 0 =
      ((((dataset_transform tk prompts).input_ids.getD i []).getD j 0 : Nat) : Int) := by
  have ht := trunc_len_le tk prompts i hi
  rw [mask_row_eq tk prompts i hi, maskRow_getD _ _ _ hj ht] at hmask
  have hlt : j < ((truncOf tk prompts).getD i []).length := by
    by_contra hge
    rw [if_neg hge] at hmask
    omega
  rw [labels_cell tk prompts i j hi hj, if_pos hlt,
    ids_row_eq tk prompts i hi, padRow_getD _ _ _ _ hj ht, if_pos hlt]

/-- C8: the transform truncates at the hard-coded bound 512 regardless
of the tokenizer's configured `model_max_length`: every output row is
at most 512 long, and the output does not vary with `model_max_length`. -/
theorem truncation_hardcoded_512 (tk : Tokenizer) (prompts : List String) (m₁ m₂ : Nat) :
    (∀ i < prompts.length,
      ((dataset_transform tk prompts).input_ids.getD i []).length ≤ 512 ∧
      ((dataset_transform tk prompts).attention_mask.getD i []).length ≤ 512 ∧
      ((dataset_transform tk prompts).labels.getD i []).length ≤ 512) ∧
    dataset_transform { tk with modelMaxLength := m₁ } prompts =
      dataset_transform { tk with modelMaxLength := m₂ } prompts := by
  constructor
  · intro i hi
    obtain ⟨h1, h2, h3⟩ := transform_row_length tk prompts i hi
    exact ⟨h1 ▸ paddedLen_le_512 tk prompts, h2 ▸ paddedLen_le_512 tk prompts,
      h3 ▸ paddedLen_le_512 tk prompts⟩
  · rfl

/-- The script's `tokenizer.pad_token_id = tokenizer.eos_token_id`
assignment, performed right after loading the tokenizer and before any
tokenization. -/
def set_pad_token (tk : Tokenizer) : Tokenizer :=
  { tk with padTokenId := tk.eosTokenId }

/-- C9: after the script sets the pad token id to the eos token id, the
equality holds for the tokenizer used by every transform call, and every
padding (mask-0) position of `input_ids` carries the eos token id. -/
theorem pad_token_is_eos (tk : Tokenizer) (prompts : List String) (i j : Nat)
    (hi : i < prompts.length) (hj : j < paddedLen (set_pad_token tk) prompts)
    (hmask : ((dataset_transform (set_pad_token tk) prompts).attention_mask.getD i []).getD j 0
      = 0) :
    (set_pad_token tk).padTokenId = tk.eosTokenId ∧
    ((dataset_transform (set_pad_token tk) prompts).input_ids.getD i []).getD j 0 =
      tk.eosTokenId := by
  refine ⟨rfl, ?_⟩
  have ht := trunc_len_le (set_pad_token tk) prompts i hi
  rw [mask_row_eq _ prompts i hi, maskRow_getD _ _ _ hj ht] at hmask
  have hge : ¬ j < ((truncOf (set_pad_token tk) prompts).getD i []).length := by
    by_contra hlt
    rw [if_pos hlt] at hmask
    omega
  rw [ids_row_eq _ prompts i hi, padRow_getD _ _ _ _ hj ht, if_neg hge]
  rfl

/-! ### Dataset loading: `load_from_disk` with remote fallback -/

/-- A dataset is a list of prompt records. -/
abbrev Dataset := List String

/-- What `load_from_disk` can return: a dict of named splits
(`DatasetDict`) or a bare dataset. -/
inductive DiskDataset where
  | dict (splits : List (String × Dataset))
  | single (d : Dataset)
  deriving DecidableEq, Repr

/-- The `if "train" in dataset: dataset = dataset["train"]` step of
`train()`: on a split dict holding a `"train"` split, select it;
otherwise keep the loaded dataset unchanged. -/
def selectTrainSplit : DiskDataset → DiskDataset
  | .dict splits =>
    match splits.lookup "train" with
    | some d => .single d
    | none => .dict splits
  | .single d => .single d

/-- The `try: dataset = load_from_disk(...) ... except: dataset =
load_dataset(..., split="train")` block.  `localLoad` is the outcome of
`load_from_disk(data_path)`, `remote` what the hub fetch would return;
the boolean records whether the remote fetch was performed. -/
def loadTrainingData (localLoad : Except String DiskDataset) (remote : Dataset) :
    DiskDataset × Bool :=
  match localLoad with
  | .ok ld => (selectTrainSplit ld, false)
  | .error _ => (.single remote, true)

/-- C2: loading prefers the local directory; when the local load
succeeds the result is the local dataset (with its `"train"` split
selected when present) and the remote fetch is never attempted; the
remote `"train"` fetch happens exactly when the local load fails. -/
theorem local_load_preferred (localLoad : Except String DiskDataset) (remote : Dataset) :
    (∀ ld, localLoad = .ok ld →
      loadTrainingData localLoad remote = (selectTrainSplit ld, false)) ∧
    (∀ splits d, localLoad = .ok (.dict splits) → splits.lookup "train" = some d →
      loadTrainingData localLoad remote = (.single d, false)) ∧
    (∀ e, localLoad = .error e →
      loadTrainingData localLoad remote = (.single remote, true)) := by
  refine ⟨?_, ?_, ?_⟩
  · intro ld hld
    subst hld
    rfl
  · intro splits d hld hfind
    subst hld
    simp [loadTrainingData, selectTrainSplit, hfind]
  · intro e hld
    subst hld
    rfl

/-! ### LoRA wrapping and parameter trainability -/

/-- A model parameter: its name, whether it is an injected adapter
parameter, and whether it requires gradients (is trainable). -/
structure Param where
  name : String
  isAdapter : Bool
  requiresGrad : Bool
  deriving DecidableEq, Repr

/-- A model is its parameter set. -/
abbrev Model := List Param

/-- `AutoModelForCausalLM.from_pretrained`: every loaded base parameter
requires gradients. -/
def from_pretrained (names : List String) : Model :=
  names.map fun n => ⟨n, false, true⟩

/-- Modelled from the spec: `peft.get_peft_model` with
`inference_mode=False` freezes every base weight and injects small
trainable low-rank adapter parameters (targeting `W_pack`). -/
def get_peft_model (m : Model) (adapterNames : List String) : Model :=
  (m.map fun p => { p with requiresGrad := false }) ++
    adapterNames.map fun n => ⟨n, true, true⟩

/-- The `if training_args.use_lora:` branch of `train()`: wrap the
pretrained model with the adapter exactly when the toggle is on. -/
def setupModel (use_lora : Bool) (names adapterNames : List String) : Model :=
  if use_lora then get_peft_model (from_pretrained names) adapterNames
  else from_pretrained names

/-- C3: with `use_lora` enabled, a parameter of the wrapped model is
trainable exactly when it is an injected adapter parameter (every base
parameter is frozen); with the toggle disabled every parameter of the
model is trainable (and none is an adapter). -/
theorem lora_trainability (use_lora : Bool) (names adapterNames : List String) :
    (use_lora = true → ∀ p ∈ setupModel use_lora names adapterNames,
      (p.requiresGrad = true ↔ p.isAdapter = true)) ∧
    (use_lora = false → ∀ p ∈ setupModel use_lora names adapterNames,
      p.requiresGrad = true ∧ p.isAdapter = false) := by
  constructor
  · intro hl p hp
    subst hl
    have hset : setupModel true names adapterNames
        = get_peft_model (from_pretrained names) adapterNames := by
      simp [setupModel]
    rw [hset] at hp
    unfold get_peft_model from_pretrained at hp
    rcases List.mem_append.mp hp with hmem | hmem
    · rw [List.map_map] at hmem
      obtain ⟨n, _, rfl⟩ := List.mem_map.mp hmem
      simp [Function.comp]
    · obtain ⟨n, _, rfl⟩ := List.mem_map.mp hmem
      simp
  · intro hl p hp
    subst hl
    have hset : setupModel false names adapterNames = from_pretrained names := by
      simp [setupModel]
    rw [hset] at hp
    unfold from_pretrained at hp
    obtain ⟨n, _, rfl⟩ := List.mem_map.mp hp
    exact ⟨rfl, rfl⟩

/-! ### The seeded train/test split -/

/-- Modelled from the spec: one step of the deterministic pseudo-random
generator behind the seeded shuffle (the numpy generator used by
`train_test_split` is not part of this repository). -/
def lcg (s : Nat) : Nat :=
  (6364136223846793005 * s + 1442695040888963407) % 2 ^ 64

/-- Remove and return the element at index `n` (`none` past the end). -/
def pickAt {α} : Nat → List α → Option (α × List α)
  | _, [] => none
  | 0, x :: xs => some (x, xs)
  | n + 1, x :: xs => (pickAt n xs).map fun pr => (pr.1, x :: pr.2)

/-- Fisher–Yates-style seeded shuffle, fuelled by the list length. -/
def shuffleFuel {α} : Nat → Nat → List α → List α
  | 0, _, l => l
  | _ + 1, _, [] => []
  | fuel + 1, s, x :: xs =>
    match pickAt (s % (x :: xs).length) (x :: xs) with
    | some (p, r) => p :: shuffleFuel fuel (lcg s) r
    | none => x :: xs

/-- Modelled from the spec: the seeded permutation that
`train_test_split` applies to the record indices before splitting. -/
def shuffle {α} (seed : Nat) (l : List α) : List α :=
  shuffleFuel l.length seed l

theorem pickAt_eq_some {α} : ∀ (n : Nat) (l : List α), n < l.length →
    ∃ p r, pickAt n l = some (p, r) ∧ r.length + 1 = l.length ∧ (p :: r).Perm l
  | _, [], h => by simp at h
  | 0, x :: xs, _ => ⟨x, xs, rfl, rfl, List.Perm.refl _⟩
  | n + 1, x :: xs, h => by
    obtain ⟨p, r, hpick, hlen, hperm⟩ := pickAt_eq_some n xs (by simpa using h)
    refine ⟨p, x :: r, ?_, ?_, ?_⟩
    · simp [pickAt, hpick]
    · simpa using congrArg Nat.succ hlen
    · exact (List.Perm.swap x p r).trans (hperm.cons x)

theorem shuffleFuel_perm {α} : ∀ (fuel seed : Nat) (l : List α), l.length ≤ fuel →
    (shuffleFuel fuel seed l).Perm l
  | 0, _, l, _ => List.Perm.refl l
  | _ + 1, _, [], _ => List.Perm.refl []
  | fuel + 1, s, x :: xs, h => by
    have hlt : s % (x :: xs).length < (x :: xs).length := Nat.mod_lt _ (by simp)
    obtain ⟨p, r, hpick, hlen, hperm⟩ := pickAt_eq_some _ _ hlt
    have hr : r.length ≤ fuel := by
      simp only [List.length_cons] at hlen h
      omega
    simp only [shuffleFuel, hpick]
    exact ((shuffleFuel_perm fuel (lcg s) r hr).cons p).trans hperm

theorem shuffle_perm {α} (seed : Nat) (l : List α) : (shuffle seed l).Perm l :=
  shuffleFuel_perm l.length seed l (Nat.le_refl _)

/-- Modelled from the spec:
`dataset.train_test_split(test_size=1000, seed=42)` with an absolute
test size over a dataset of `n` records.  It raises when the resulting
train partition would be empty; otherwise it shuffles the record indices
with the seeded generator, the first `testSize` of them forming the test
partition and the rest the train partition. -/
def train_test_split (n testSize seed : Nat) : Except String (List Nat × List Nat) :=
  if n ≤ testSize then
    .error "the resulting train set will be empty"
  else
    let perm := shuffle seed (List.range n)
    .ok (perm.drop testSize, perm.take testSize)

/-- `dataset.select(indices)`: the records at the given indices. -/
def selectRecords {α} (ds : List α) (idx : List Nat) : List α :=
  idx.filterMap fun i => ds[i]?

theorem selectRecords_length {α} (ds : List α) (idx : List Nat)
    (h : ∀ i ∈ idx, i < ds.length) : (selectRecords ds idx).length = idx.length := by
  induction idx with
  | nil => rfl
  | cons i is ih =>
    have hi : i < ds.length := h i (List.mem_cons_self _ _)
    have : ds[i]? = some (ds.get ⟨i, hi⟩) := List.getElem?_eq_getElem hi
    simp only [selectRecords, List.filterMap_cons, this]
    rw [List.length_cons]
    have := ih fun j hj => h j (List.mem_cons_of_mem _ hj)
    simp only [selectRecords] at this
    rw [this]
    simp

/-- C6: the train/test split is deterministic: two runs over the same
dataset with seed 42 and test size 1000 produce identical results,
hence every record index lands in the same partition in both runs. -/
theorem split_deterministic (ds : Dataset) (r₁ r₂ : Except String (List Nat × List Nat))
    (h₁ : r₁ = train_test_split ds.length 1000 42)
    (h₂ : r₂ = train_test_split ds.length 1000 42) :
    r₁ = r₂ ∧
    ∀ tr₁ te₁ tr₂ te₂, r₁ = .ok (tr₁, te₁) → r₂ = .ok (tr₂, te₂) →
      ∀ i, (i ∈ tr₁ ↔ i ∈ tr₂) ∧ (i ∈ te₁ ↔ i ∈ te₂) := by
  subst h₁
  subst h₂
  refine ⟨rfl, ?_⟩
  intro tr₁ te₁ tr₂ te₂ hr₁ hr₂ i
  rw [hr₁] at hr₂
  simp only [Except.ok.injEq, Prod.mk.injEq] at hr₂
  obtain ⟨h₁, h₂⟩ := hr₂
  subst h₁
  subst h₂
  exact ⟨Iff.rfl, Iff.rfl⟩

/-- C7: for a dataset of more than 1000 records, the split yields a test
partition of exactly 1000 records and a train partition of the remaining
`N - 1000`; the two index sets are disjoint and together are a
permutation of all record indices. -/
theorem split_partition (ds : Dataset) (h : 1000 < ds.length) :
    ∃ tr te, train_test_split ds.length 1000 42 = .ok (tr, te) ∧
      te.length = 1000 ∧ tr.length = ds.length - 1000 ∧
      tr.Disjoint te ∧ (tr ++ te).Perm (List.range ds.length) ∧
      (selectRecords ds te).length = 1000 ∧
      (selectRecords ds tr).length = ds.length - 1000 := by
  have hn : ¬ ds.length ≤ 1000 := not_le.mpr h
  have hperm : (shuffle 42 (List.range ds.length)).Perm (List.range ds.length) :=
    shuffle_perm 42 (List.range ds.length)
  have hlen : (shuffle 42 (List.range ds.length)).length = ds.length := by
    rw [hperm.length_eq, List.length_range]
  have hmemlt : ∀ i ∈ shuffle 42 (List.range ds.length), i < ds.length := by
    intro i hi
    exact List.mem_range.mp (hperm.mem_iff.mp hi)
  have hnd : (shuffle 42 (List.range ds.length)).Nodup :=
    hperm.nodup_iff.mpr (List.nodup_range ds.length)
  refine ⟨(shuffle 42 (List.range ds.length)).drop 1000,
    (shuffle 42 (List.range ds.length)).take 1000, ?_, ?_, ?_, ?_, ?_, ?_, ?_⟩
  · rw [train_test_split, if_neg hn]
  · rw [List.length_take, hlen]
    omega
  · rw [List.length_drop, hlen]
  · have := (List.nodup_append.mp
      (by rwa [List.take_append_drop] : ((shuffle 42 (List.range ds.length)).take 1000 ++
        (shuffle 42 (List.range ds.length)).drop 1000).Nodup)).2.2
    exact this.symm
  · exact (List.perm_append_comm.trans
      (by rw [List.take_append_drop])).trans hperm
  · rw [selectRecords_length ds _ fun i hi => hmemlt i (List.mem_of_mem_take hi),
      List.length_take, hlen]
    omega
  · rw [selectRecords_length ds _ fun i hi => hmemlt i (List.mem_of_mem_drop hi),
      List.length_drop, hlen]

/-- Outcome of the tail of `train()`: the trainer only runs after the
split has succeeded. -/
inductive RunOutcome where
  | finished (trainSize testSize : Nat)
  deriving DecidableEq, Repr

/-- The end of `train()`: split the dataset, then construct the trainer
over the two partitions and train; the split's error is not caught. -/
def runTraining (ds : Dataset) : Except String RunOutcome :=
  match train_test_split ds.length 1000 42 with
  | .error e => .error e
  | .ok (tr, te) => .ok (.finished tr.length te.length)

/-- C10: with at most 1000 records a train partition of the stated
sizes would be empty; the split raises an error that nothing catches, so
the run terminates before any training occurs. -/
theorem small_dataset_split_fails (ds : Dataset) (h : ds.length ≤ 1000) :
    ds.length - 1000 = 0 ∧
    ∃ e, train_test_split ds.length 1000 42 = .error e ∧ runTraining ds = .error e := by
  refine ⟨by omega, "the resulting train set will be empty", ?_, ?_⟩
  · rw [train_test_split, if_pos h]
  · rw [runTraining, train_test_split, if_pos h]

/-! ### Concrete witnesses -/

/-- A small concrete tokenizer used to instantiate the theorems. -/
def demoTokenizer : Tokenizer where
  encode s := s.data.map Char.toNat
  padTokenId := 0
  eosTokenId := 0
  modelMaxLength := 512

/-- Witness for C1 on a concrete two-prompt batch. -/
theorem mask_zero_iff_label_ignore_witness :
    ((((dataset_transform demoTokenizer ["ab", ""]).attention_mask.getD 0 []).getD 0 0 = 0) ↔
      ((dataset_transform demoTokenizer ["ab", ""]).labels.getD 0 []).getD 0 0 = -100) ∧
    (((dataset_transform demoTokenizer ["ab", ""]).attention_mask.getD 0 []).getD 0 0 ≠ 0 →
      ((dataset_transform demoTokenizer ["ab", ""]).labels.getD 0 []).getD 0 0 =
        ((((dataset_transform demoTokenizer ["ab", ""]).input_ids.getD 0 []).getD 0 0 : Nat) :
          Int)) :=
  mask_zero_iff_label_ignore demoTokenizer ["ab", ""] 0 0 (by decide) (by decide)

/-- Witness for C4 on a concrete non-empty batch. -/
theorem transform_rows_share_padded_length_witness :
    (∀ i < (["ab", ""] : List String).length,
      ((dataset_transform demoTokenizer ["ab", ""]).input_ids.getD i []).length =
        paddedLen demoTokenizer ["ab", ""] ∧
      ((dataset_transform demoTokenizer ["ab", ""]).attention_mask.getD i []).length =
        paddedLen demoTokenizer ["ab", ""] ∧
      ((dataset_transform demoTokenizer ["ab", ""]).labels.getD i []).length =
        paddedLen demoTokenizer ["ab", ""]) ∧
    paddedLen demoTokenizer ["ab", ""] =
      min (((["ab", ""] : List String).map fun p =>
        (demoTokenizer.encode p).length).foldr max 0) 512 :=
  transform_rows_share_padded_length demoTokenizer ["ab", ""] (by decide)

/-- Witness for C5 on a concrete attended position. -/
theorem label_eq_id_at_attended_witness :
    ((dataset_transform demoTokenizer ["ab", ""]).labels.getD 0 []).getD 0 0 =
      ((((dataset_transform demoTokenizer ["ab", ""]).input_ids.getD 0 []).getD 0 0 : Nat) :
        Int) :=
  label_eq_id_at_attended demoTokenizer ["ab", ""] 0 0 (by decide) (by decide) (by decide)

/-- Witness for C8 on a concrete batch and two `model_max_length` values. -/
theorem truncation_hardcoded_512_witness :
    (∀ i < (["ab", ""] : List String).length,
      ((dataset_transform demoTokenizer ["ab", ""]).input_ids.getD i []).length ≤ 512 ∧
      ((dataset_transform demoTokenizer ["ab", ""]).attention_mask.getD i []).length ≤ 512 ∧
      ((dataset_transform demoTokenizer ["ab", ""]).labels.getD i []).length ≤ 512) ∧
    dataset_transform { demoTokenizer with modelMaxLength := 5 } ["ab", ""] =
      dataset_transform { demoTokenizer with modelMaxLength := 9 } ["ab", ""] :=
  truncation_hardcoded_512 demoTokenizer ["ab", ""] 5 9

/-- Witness for C9 on a concrete padding position. -/
theorem pad_token_is_eos_witness :
    (set_pad_token demoTokenizer).padTokenId = demoTokenizer.eosTokenId ∧
    ((dataset_transform (set_pad_token demoTokenizer) ["ab", ""]).input_ids.getD 1 []).getD 0 0 =
      demoTokenizer.eosTokenId :=
  pad_token_is_eos demoTokenizer ["ab", ""] 1 0 (by decide) (by decide) (by decide)

/-- Witness for C2 on a concrete successful local load with a train split. -/
theorem local_load_preferred_witness :
    (∀ ld, (Except.ok (DiskDataset.dict [("train", ["x"])]) : Except String DiskDataset) =
        .ok ld →
      loadTrainingData (.ok (.dict [("train", ["x"])])) [] = (selectTrainSplit ld, false)) ∧
    (∀ splits d,
      (Except.ok (DiskDataset.dict [("train", ["x"])]) : Except String DiskDataset) =
        .ok (.dict splits) →
      splits.lookup "train" = some d →
      loadTrainingData (.ok (.dict [("train", ["x"])])) [] = (.single d, false)) ∧
    (∀ e, (Except.ok (DiskDataset.dict [("train", ["x"])]) : Except String DiskDataset) =
        .error e →
      loadTrainingData (.ok (.dict [("train", ["x"])])) [] = (.single [], true)) :=
  local_load_preferred (.ok (.dict [("train", ["x"])])) []

/-- Witness for C3 with the adapter toggle enabled on concrete names. -/
theorem lora_trainability_witness :
    (true = true → ∀ p ∈ setupModel true ["model.W_pack"] ["lora_A", "lora_B"],
      (p.requiresGrad = true ↔ p.isAdapter = true)) ∧
    (true = false → ∀ p ∈ setupModel true ["model.W_pack"] ["lora_A", "lora_B"],
      p.requiresGrad = true ∧ p.isAdapter = false) :=
  lora_trainability true ["model.W_pack"] ["lora_A", "lora_B"]

/-- Witness for C6 on a concrete dataset. -/
theorem split_deterministic_witness :
    train_test_split (["a"] : Dataset).length 1000 42 =
        train_test_split (["a"] : Dataset).length 1000 42 ∧
    ∀ tr₁ te₁ tr₂ te₂,
      train_test_split (["a"] : Dataset).length 1000 42 = .ok (tr₁, te₁) →
      train_test_split (["a"] : Dataset).length 1000 42 = .ok (tr₂, te₂) →
      ∀ i, (i ∈ tr₁ ↔ i ∈ tr₂) ∧ (i ∈ te₁ ↔ i ∈ te₂) :=
  split_deterministic ["a"] _ _ rfl rfl

/-- Witness for C7 on a concrete dataset of 1001 records. -/
theorem split_partition_witness :
    ∃ tr te, train_test_split (List.replicate 1001 "").length 1000 42 = .ok (tr, te) ∧
      te.length = 1000 ∧ tr.length = (List.replicate 1001 "").length - 1000 ∧
      tr.Disjoint te ∧ (tr ++ te).Perm (List.range (List.replicate 1001 "").length) ∧
      (selectRecords (List.replicate 1001 "") te).length = 1000 ∧
      (selectRecords (List.replicate 1001 "") tr).length =
        (List.replicate 1001 "").length - 1000 :=
  split_partition (List.replicate 1001 "") (by rw [List.length_replicate]; norm_num)

/-- Witness for C10 on the empty dataset. -/
theorem small_dataset_split_fails_witness :
    (([] : Dataset).length - 1000 = 0) ∧
    ∃ e, train_test_split ([] : Dataset).length 1000 42 = .error e ∧
      runTraining [] = .error e :=
  small_dataset_split_fails [] (by decide)

end FineTune
